import Mathlib

/-!
Verification of the lorri project core (src/project.rs).

The development shallowly embeds the data model and operations of the
`Project` type: construction (`load`, `from_cwd`), the md5-based project
identifier (`hash`), the lazily created garbage-collection root directory
(`gc_root_path`), the expression accessor, and the error conversion from
the file-location collaborator into `ProjectLoadError`.

Unix paths are modelled as a flag for absoluteness plus a list of
components; the filesystem is modelled as explicit lists of existing
directories and files, and `std::fs::create_dir_all` as a fold that
creates each missing ancestor in order, failing when a component already
exists as a non-directory.
-/

set_option autoImplicit false
set_option maxRecDepth 100000

deriving instance DecidableEq for Except

namespace Lorri

/-- A normalized Unix path: whether it is absolute, plus its components.
`PathBuf::parent` returns `None` exactly when there are no components
(the filesystem root `/` or the empty relative path). -/
structure Path where
  absolute : Bool
  components : List String
deriving DecidableEq, Repr

/-- `PathBuf::parent`: drop the last component; `None` when there is none. -/
def Path.parent (p : Path) : Option Path :=
  match p.components with
  | [] => none
  | _ :: _ => some ⟨p.absolute, p.components.dropLast⟩

/-- `PathBuf::join` with a single relative component (the only way the
program uses it: joining a hex digest and the literal string of the root
directory name). -/
def Path.joinStr (p : Path) (s : String) : Path :=
  ⟨p.absolute, p.components ++ [s]⟩

/-- The textual rendering of a path, as `OsStr` holds it on Unix. -/
def Path.render (p : Path) : String :=
  (if p.absolute then "/" else "") ++ String.intercalate "/" p.components

/-- UTF-8 encoding of one character, as a list of byte values. -/
def charUtf8 (c : Char) : List Nat :=
  let n := c.toNat
  if n < 128 then [n]
  else if n < 2048 then [192 + n / 64, 128 + n % 64]
  else if n < 65536 then [224 + n / 4096, 128 + n / 64 % 64, 128 + n % 64]
  else [240 + n / 262144, 128 + n / 4096 % 64, 128 + n / 64 % 64, 128 + n % 64]

/-- The raw bytes of a string (`as_os_str().as_bytes()` on Unix). -/
def strBytes (s : String) : List Nat :=
  (s.data.map charUtf8).flatten

/-- The raw bytes of a path. -/
def Path.bytes (p : Path) : List Nat :=
  strBytes p.render

/-! ## The md5 hash (the `md5` crate), over byte lists -/

/-- The 64 md5 round constants. -/
def md5K : List Nat :=
  [0xd76aa478, 0xe8c7b756, 0x242070db, 0xc1bdceee,
   0xf57c0faf, 0x4787c62a, 0xa8304613, 0xfd469501,
   0x698098d8, 0x8b44f7af, 0xffff5bb1, 0x895cd7be,
   0x6b901122, 0xfd987193, 0xa679438e, 0x49b40821,
   0xf61e2562, 0xc040b340, 0x265e5a51, 0xe9b6c7aa,
   0xd62f105d, 0x02441453, 0xd8a1e681, 0xe7d3fbc8,
   0x21e1cde6, 0xc33707d6, 0xf4d50d87, 0x455a14ed,
   0xa9e3e905, 0xfcefa3f8, 0x676f02d9, 0x8d2a4c8a,
   0xfffa3942, 0x8771f681, 0x6d9d6122, 0xfde5380c,
   0xa4beea44, 0x4bdecfa9, 0xf6bb4b60, 0xbebfbc70,
   0x289b7ec6, 0xeaa127fa, 0xd4ef3085, 0x04881d05,
   0xd9d4d039, 0xe6db99e5, 0x1fa27cf8, 0xc4ac5665,
   0xf4292244, 0x432aff97, 0xab9423a7, 0xfc93a039,
   0x655b59c3, 0x8f0ccc92, 0xffeff47d, 0x85845dd1,
   0x6fa87e4f, 0xfe2ce6e0, 0xa3014314, 0x4e0811a1,
   0xf7537e82, 0xbd3af235, 0x2ad7d2bb, 0xeb86d391]

/-- The 64 md5 per-round left-rotation amounts. -/
def md5S : List Nat :=
  [7, 12, 17, 22, 7, 12, 17, 22, 7, 12, 17, 22, 7, 12, 17, 22,
   5, 9, 14, 20, 5, 9, 14, 20, 5, 9, 14, 20, 5, 9, 14, 20,
   4, 11, 16, 23, 4, 11, 16, 23, 4, 11, 16, 23, 4, 11, 16, 23,
   6, 10, 15, 21, 6, 10, 15, 21, 6, 10, 15, 21, 6, 10, 15, 21]

/-- Left rotation of a 32-bit word. -/
def rotl32 (x n : Nat) : Nat :=
  (((x <<< n) % 2 ^ 32) ||| (x >>> (32 - n))) % 2 ^ 32

/-- Little-endian 32-bit word number `g` of a 64-byte block. -/
def le32At (block : List Nat) (g : Nat) : Nat :=
  block.getD (4 * g) 0 + 256 * block.getD (4 * g + 1) 0 +
    65536 * block.getD (4 * g + 2) 0 + 16777216 * block.getD (4 * g + 3) 0

/-- One of the 64 md5 steps on the running state `(a, b, c, d)`. -/
def md5Step (block : List Nat) (st : Nat × Nat × Nat × Nat) (i : Nat) :
    Nat × Nat × Nat × Nat :=
  let a := st.1
  let b := st.2.1
  let c := st.2.2.1
  let d := st.2.2.2
  let f :=
    if i < 16 then (b &&& c) ||| ((b ^^^ 0xffffffff) &&& d)
    else if i < 32 then (d &&& b) ||| ((d ^^^ 0xffffffff) &&& c)
    else if i < 48 then b ^^^ c ^^^ d
    else c ^^^ (b ||| (d ^^^ 0xffffffff))
  let g :=
    if i < 16 then i
    else if i < 32 then (5 * i + 1) % 16
    else if i < 48 then (3 * i + 5) % 16
    else (7 * i) % 16
  let t := (f + a + md5K.getD i 0 + le32At block g) % 2 ^ 32
  (d, (b + rotl32 t (md5S.getD i 0)) % 2 ^ 32, b, c)

/-- Process one 64-byte block: run the 64 steps, then add the input state
back in, word-wise modulo `2 ^ 32`. -/
def md5Block (st : Nat × Nat × Nat × Nat) (block : List Nat) :
    Nat × Nat × Nat × Nat :=
  let r := (List.range 64).foldl (md5Step block) st
  ((st.1 + r.1) % 2 ^ 32, (st.2.1 + r.2.1) % 2 ^ 32,
   (st.2.2.1 + r.2.2.1) % 2 ^ 32, (st.2.2.2 + r.2.2.2) % 2 ^ 32)

/-- md5 padding: a `0x80` byte, zeros up to 56 mod 64, then the bit length
as a little-endian 64-bit number. -/
def md5Pad (msg : List Nat) : List Nat :=
  msg ++ [128] ++ List.replicate ((119 - msg.length % 64) % 64) 0 ++
    (List.range 8).map (fun i => msg.length * 8 / 256 ^ i % 256)

/-- The md5 initial state. -/
def md5Init : Nat × Nat × Nat × Nat :=
  (0x67452301, 0xefcdab89, 0x98badcfe, 0x10325476)

/-- Fold `md5Block` over the 64-byte blocks of an already padded message. -/
def md5Blocks (pad : List Nat) : Nat × Nat × Nat × Nat :=
  (List.range (pad.length / 64)).foldl
    (fun st i => md5Block st ((pad.drop (64 * i)).take 64)) md5Init

/-- The four little-endian bytes of a 32-bit word. -/
def wordLEBytes (w : Nat) : List Nat :=
  [w % 256, w / 256 % 256, w / 65536 % 256, w / 16777216 % 256]

/-- The md5 digest of a byte list: sixteen bytes. -/
def md5 (msg : List Nat) : List Nat :=
  let st := md5Blocks (md5Pad msg)
  wordLEBytes st.1 ++ wordLEBytes st.2.1 ++ wordLEBytes st.2.2.1 ++
    wordLEBytes st.2.2.2

/-- One lowercase hexadecimal digit. -/
def hexDigitChar (n : Nat) : Char :=
  if n < 10 then Char.ofNat (48 + n) else Char.ofNat (87 + n)

/-- The two lowercase hexadecimal digits of a byte, high nibble first
(`{:02x}`). -/
def byteToHex (b : Nat) : List Char :=
  [hexDigitChar (b / 16), hexDigitChar (b % 16)]

/-- The `LowerHex` rendering of a digest: each byte as two lowercase
hexadecimal digits. -/
def digestToHex (bs : List Nat) : String :=
  ⟨(bs.map byteToHex).flatten⟩

/-! ## The data model of src/project.rs -/

/-- `std::io::Error`, abstracted to an error code. -/
structure IoError where
  code : Nat
deriving DecidableEq, Repr

/-- The error type of the file-location collaborator (`locate_file`). -/
inductive FileLocationError where
  | NotFound : FileLocationError
  | Io : IoError → FileLocationError
deriving DecidableEq, Repr

/-- `ProjectLoadError`: errors of finding and loading a lorri config file. -/
inductive ProjectLoadError where
  | ConfigNotFound : ProjectLoadError
  | Io : IoError → ProjectLoadError
deriving DecidableEq, Repr

/-- `impl From<FileLocationError> for ProjectLoadError`. -/
def ProjectLoadError.ofFileLocationError : FileLocationError → ProjectLoadError
  | FileLocationError.NotFound => ProjectLoadError.ConfigNotFound
  | FileLocationError.Io e => ProjectLoadError.Io e

/-- A specific project which we are operating on. -/
structure Project where
  nix_file : Path
  project_root : Path
  gc_root : Path
deriving DecidableEq, Repr

/-- The result of `constants::Paths::initialize`, reduced to the one
accessor `from_cwd` uses. -/
structure Paths where
  gc_root_dir : Path
deriving DecidableEq, Repr

/-- Failure of the path-layout collaborator (`constants::Paths`). -/
inductive PathsInitFailure where
  | failed : PathsInitFailure
deriving DecidableEq, Repr

/-- `Project::load`. The `none` result models the panic of the `unwrap`
on `nix_file.parent()`. -/
def Project.load (nix_file gc_root : Path) :
    Option (Except ProjectLoadError Project) :=
  match nix_file.parent with
  | none => none
  | some project_root =>
      some (Except.ok
        { project_root := project_root, nix_file := nix_file,
          gc_root := gc_root })

/-- `Project::from_cwd`, with the two collaborator calls supplied as
arguments: the result of `locate_file::in_cwd` and the result of
`constants::Paths::initialize`. The `?` operator applies the `From`
conversion to a locate failure; `.expect` panics (`none`) when the
path-layout collaborator fails. -/
def Project.from_cwd (locateResult : Except FileLocationError Path)
    (pathsResult : Except PathsInitFailure Paths) :
    Option (Except ProjectLoadError Project) :=
  match locateResult with
  | Except.error e =>
      some (Except.error (ProjectLoadError.ofFileLocationError e))
  | Except.ok shell_nix =>
      match pathsResult with
      | Except.error _ => none
      | Except.ok paths => Project.load shell_nix paths.gc_root_dir

/-- `Project::expression`: the nix file (a clone in Rust). -/
def Project.expression (proj : Project) : Path :=
  proj.nix_file

/-- `Project::hash`: the lowercase hexadecimal md5 digest of the raw
bytes of the project root path. -/
def Project.hash (proj : Project) : String :=
  digestToHex (md5 proj.project_root.bytes)

/-! ## The filesystem model and gc_root_path -/

/-- A filesystem: which paths exist as directories, which as files. -/
structure FS where
  dirs : List Path
  files : List Path
deriving DecidableEq, Repr

/-- The chain of ancestors of a path, outermost first, ending with the
path itself. -/
def Path.ancestorChain (p : Path) : List Path :=
  (List.range (p.components.length + 1)).map
    (fun n => ⟨p.absolute, p.components.take n⟩)

/-- Create a single directory: an error if the path exists as a file, a
no-op if it already is a directory. -/
def FS.mkdirOne (fs : FS) (p : Path) : Except IoError FS :=
  if p ∈ fs.files then Except.error ⟨17⟩
  else if p ∈ fs.dirs then Except.ok fs
  else Except.ok ⟨p :: fs.dirs, fs.files⟩

/-- Create every path of a list in order, stopping at the first error. -/
def FS.mkdirEach : FS → List Path → Except IoError FS
  | fs, [] => Except.ok fs
  | fs, p :: ps =>
      match fs.mkdirOne p with
      | Except.error e => Except.error e
      | Except.ok fs1 => FS.mkdirEach fs1 ps

/-- `std::fs::create_dir_all`: create the directory and every missing
ancestor, outermost first. -/
def FS.create_dir_all (fs : FS) (p : Path) : Except IoError FS :=
  FS.mkdirEach fs p.ancestorChain

/-- The directory that `gc_root_path` computes:
`gc_root / hash(project) / "gc_root"`. -/
def Project.gcRootTarget (proj : Project) : Path :=
  (proj.gc_root.joinStr proj.hash).joinStr "gc_root"

/-- `Project::gc_root_path`: compute the target path, create it (with all
missing ancestors) unless it already is a directory, and return it
together with the resulting filesystem. -/
def Project.gc_root_path (proj : Project) (fs : FS) :
    Except IoError (Path × FS) :=
  let path := proj.gcRootTarget
  if path ∈ fs.dirs then Except.ok (path, fs)
  else
    match fs.create_dir_all path with
    | Except.error e => Except.error e
    | Except.ok fs1 => Except.ok (path, fs1)

/-- Well-formedness of a filesystem: every ancestor of an existing
directory exists as a directory. -/
def FS.wf (fs : FS) : Prop :=
  ∀ p ∈ fs.dirs, ∀ q ∈ p.ancestorChain, q ∈ fs.dirs

instance (fs : FS) : Decidable fs.wf := by
  unfold FS.wf
  infer_instance

/-! ## Helper lemmas about the filesystem model -/

theorem mkdirOne_ok (fs : FS) (p : Path) (fs1 : FS)
    (h : fs.mkdirOne p = Except.ok fs1) :
    fs1.files = fs.files ∧ ∀ q : Path, q ∈ fs1.dirs ↔ q ∈ fs.dirs ∨ q = p := by
  by_cases hf : p ∈ fs.files
  · simp [FS.mkdirOne, hf] at h
  · by_cases hd : p ∈ fs.dirs
    · simp [FS.mkdirOne, hf, hd] at h
      subst h
      exact ⟨rfl, fun q => ⟨Or.inl, fun hq => hq.elim id (fun e => e ▸ hd)⟩⟩
    · simp [FS.mkdirOne, hf, hd] at h
      subst h
      refine ⟨rfl, fun q => ?_⟩
      simp only [List.mem_cons]
      tauto

theorem mkdirEach_ok (l : List Path) :
    ∀ fs fs1 : FS, FS.mkdirEach fs l = Except.ok fs1 →
      fs1.files = fs.files ∧
        ∀ q : Path, q ∈ fs1.dirs ↔ q ∈ fs.dirs ∨ q ∈ l := by
  induction l with
  | nil =>
      intro fs fs1 h
      simp [FS.mkdirEach] at h
      subst h
      simp
  | cons p ps ih =>
      intro fs fs1 h
      unfold FS.mkdirEach at h
      cases hm : fs.mkdirOne p with
      | error e => rw [hm] at h; cases h
      | ok fsm =>
          rw [hm] at h
          obtain ⟨hf, hdirs⟩ := ih fsm fs1 h
          obtain ⟨hf1, hdirs1⟩ := mkdirOne_ok fs p fsm hm
          refine ⟨hf.trans hf1, fun q => ?_⟩
          rw [hdirs q, hdirs1 q]
          simp only [List.mem_cons]
          tauto

theorem self_mem_ancestorChain (p : Path) : p ∈ p.ancestorChain := by
  unfold Path.ancestorChain
  refine List.mem_map.mpr ⟨p.components.length, ?_, ?_⟩
  · exact List.mem_range.mpr (Nat.lt_succ_self _)
  · simp

theorem ancestorChain_trans {p q r : Path} (hq : q ∈ p.ancestorChain)
    (hr : r ∈ q.ancestorChain) : r ∈ p.ancestorChain := by
  unfold Path.ancestorChain at hq hr ⊢
  obtain ⟨k, hk, hq⟩ := List.mem_map.mp hq
  obtain ⟨j, hj, hr⟩ := List.mem_map.mp hr
  rw [List.mem_range] at hk
  subst hq
  rw [List.mem_range] at hj
  simp only [List.length_take] at hj
  refine List.mem_map.mpr ⟨min j k, List.mem_range.mpr ?_, ?_⟩
  · have := Nat.min_le_right j k
    omega
  · rw [← hr]
    simp [List.take_take]

theorem create_dir_all_ok (fs fs1 : FS) (p : Path)
    (h : fs.create_dir_all p = Except.ok fs1) :
    fs1.files = fs.files ∧
      ∀ q : Path, q ∈ fs1.dirs ↔ q ∈ fs.dirs ∨ q ∈ p.ancestorChain :=
  mkdirEach_ok p.ancestorChain fs fs1 h

theorem create_dir_all_wf (fs fs1 : FS) (p : Path) (hwf : fs.wf)
    (h : fs.create_dir_all p = Except.ok fs1) : fs1.wf := by
  obtain ⟨hf, hd⟩ := create_dir_all_ok fs fs1 p h
  intro q hq r hr
  rw [hd] at hq ⊢
  rcases hq with hq | hq
  · exact Or.inl (hwf q hq r hr)
  · exact Or.inr (ancestorChain_trans hq hr)

theorem gc_root_path_ok (proj : Project) (fs : FS) (p : Path) (fs1 : FS)
    (h : proj.gc_root_path fs = Except.ok (p, fs1)) :
    p = proj.gcRootTarget ∧ p ∈ fs1.dirs := by
  simp only [Project.gc_root_path] at h
  by_cases hd : proj.gcRootTarget ∈ fs.dirs
  · simp [hd] at h
    exact ⟨h.1.symm, h.2 ▸ (h.1 ▸ hd)⟩
  · simp only [hd, if_false] at h
    cases hc : fs.create_dir_all proj.gcRootTarget with
    | error e =>
        rw [hc] at h
        cases h
    | ok fsc =>
        rw [hc] at h
        simp only [Except.ok.injEq, Prod.mk.injEq] at h
        obtain ⟨hdf, hdd⟩ := create_dir_all_ok fs fsc proj.gcRootTarget hc
        refine ⟨h.1.symm, ?_⟩
        rw [← h.2, ← h.1]
        exact (hdd _).mpr (Or.inr (self_mem_ancestorChain _))

/-! ## Facts about the digest encoding -/

theorem wordLEBytes_lt (w : Nat) : ∀ b ∈ wordLEBytes w, b < 256 := by
  intro b hb
  simp only [wordLEBytes, List.mem_cons, List.not_mem_nil, or_false] at hb
  rcases hb with rfl | rfl | rfl | rfl <;> omega

theorem md5_lt (msg : List Nat) : ∀ b ∈ md5 msg, b < 256 := by
  intro b hb
  simp only [md5, List.mem_append] at hb
  rcases hb with ((hb | hb) | hb) | hb <;> exact wordLEBytes_lt _ b hb

theorem md5_length (msg : List Nat) : (md5 msg).length = 16 := by
  simp [md5, wordLEBytes]

theorem digestToHex_length (bs : List Nat) :
    (digestToHex bs).length = 2 * bs.length := by
  unfold digestToHex
  induction bs with
  | nil => rfl
  | cons b tl ih =>
      simp only [String.length, List.map_cons, List.flatten_cons,
        List.length_append, List.length_cons, byteToHex, List.length_nil] at ih ⊢
      omega

theorem hexDigitChar_mem : ∀ n < 16, hexDigitChar n ∈ "0123456789abcdef".data := by
  decide

theorem byteToHex_mem (b : Nat) (hb : b < 256) :
    ∀ c ∈ byteToHex b, c ∈ "0123456789abcdef".data := by
  intro c hc
  simp only [byteToHex, List.mem_cons, List.not_mem_nil, or_false] at hc
  rcases hc with rfl | rfl
  · exact hexDigitChar_mem (b / 16) (by omega)
  · exact hexDigitChar_mem (b % 16) (by omega)

theorem digestToHex_mem (bs : List Nat) (hbs : ∀ b ∈ bs, b < 256) :
    ∀ c ∈ (digestToHex bs).data, c ∈ "0123456789abcdef".data := by
  intro c hc
  simp only [digestToHex, List.mem_flatten, List.mem_map] at hc
  obtain ⟨l, ⟨b, hb, hl⟩, hcl⟩ := hc
  subst hl
  exact byteToHex_mem b (hbs b hb) c hcl

/-! ## Regression checks of the embedded md5 against the RFC 1321 test
vectors -/

theorem md5_vector_empty :
    digestToHex (md5 (strBytes "")) = "d41d8cd98f00b204e9800998ecf8427e" := by
  rfl

theorem md5_vector_abc :
    digestToHex (md5 (strBytes "abc")) = "900150983cd24fb0d6963f7d28e17f72" := by
  rfl

/-! ## Concrete values used by the witnesses -/

def pathW : Path := ⟨true, ["home", "u", "proj", "shell.nix"]⟩

def rootW : Path := ⟨true, ["home", "u", "proj"]⟩

def baseW : Path := ⟨true, ["tmp", "lorri-roots"]⟩

def rootPathW : Path := ⟨true, []⟩

def projW1 : Project :=
  { nix_file := ⟨true, ["p", "shell.nix"]⟩, project_root := ⟨true, ["p"]⟩,
    gc_root := ⟨true, ["t"]⟩ }

def projW2 : Project :=
  { nix_file := ⟨true, ["p", "default.nix"]⟩, project_root := ⟨true, ["p"]⟩,
    gc_root := ⟨true, ["roots"]⟩ }

/-- The md5 digest of the string of the root directory of `projW1`. -/
def hashW : String := "b86493d2ae255a02bb7ea61e7fb77c10"

def pathsW : Paths := ⟨⟨true, ["tmp", "lorri-roots"]⟩⟩

def fsW3 : FS :=
  ⟨[⟨true, []⟩, ⟨true, ["t"]⟩, ⟨true, ["t", hashW]⟩,
    ⟨true, ["t", hashW, "gc_root"]⟩], []⟩

def fsW4 : FS :=
  ⟨[⟨true, ["t", hashW, "gc_root"]⟩, ⟨true, ["t", hashW]⟩, ⟨true, ["t"]⟩,
    ⟨true, []⟩], []⟩

/-! ## The claims -/

/-- C1: for every configuration-file path with a parent directory `d` and
every base directory `base`, `Project.load` returns (with no panic) a
`Project` whose `project_root` is `d`, whose `nix_file` is the given path,
and whose `gc_root` is `base`. -/
theorem C1_load_fields (p d base : Path) (h : p.parent = some d) :
    Project.load p base =
      some (Except.ok
        { nix_file := p, project_root := d, gc_root := base }) := by
  unfold Project.load
  rw [h]

theorem C1_load_fields_witness :
    pathW.parent = some rootW ∧
      Project.load pathW baseW =
        some (Except.ok
          { nix_file := pathW, project_root := rootW, gc_root := baseW }) :=
  ⟨by decide, C1_load_fields pathW rootW baseW (by decide)⟩

/-- C2: the identifier of a project is the lowercase hexadecimal md5
digest of the raw bytes of the `project_root` path, hence a pure function
of `project_root` alone: projects with identical roots have identical
identifiers. -/
theorem C2_hash_is_md5_of_root (p1 p2 : Project)
    (h : p1.project_root = p2.project_root) :
    p1.hash = digestToHex (md5 p1.project_root.bytes) ∧ p1.hash = p2.hash := by
  refine ⟨rfl, ?_⟩
  unfold Project.hash
  rw [h]

theorem C2_hash_is_md5_of_root_witness :
    projW1.project_root = projW2.project_root ∧
      projW1.hash = projW2.hash ∧ projW1.hash = hashW :=
  ⟨rfl, (C2_hash_is_md5_of_root projW1 projW2 rfl).2, by rfl⟩

/-- C3: `gc_root_path` computes `gc_root / hash / "gc_root"`; on success
it returns exactly that path, the path is a directory afterwards and all
its missing ancestors have been created; when it fails it propagates the
error of `create_dir_all`. -/
theorem C3_gc_root_path_creates (proj : Project) (fs : FS) (hwf : fs.wf) :
    (∀ p fs1, proj.gc_root_path fs = Except.ok (p, fs1) →
        p = proj.gcRootTarget ∧ p ∈ fs1.dirs ∧ fs1.wf ∧
          ∀ q ∈ p.ancestorChain, q ∈ fs1.dirs) ∧
      (∀ e, proj.gc_root_path fs = Except.error e →
        fs.create_dir_all proj.gcRootTarget = Except.error e) := by
  constructor
  · intro p fs1 h
    simp only [Project.gc_root_path] at h
    by_cases hd : proj.gcRootTarget ∈ fs.dirs
    · simp only [hd, if_true, Except.ok.injEq, Prod.mk.injEq] at h
      obtain ⟨h1, h2⟩ := h
      subst h1
      subst h2
      exact ⟨rfl, hd, hwf, fun q hq => hwf _ hd q hq⟩
    · simp only [hd, if_false] at h
      cases hc : fs.create_dir_all proj.gcRootTarget with
      | error e => rw [hc] at h; cases h
      | ok fsc =>
          rw [hc] at h
          simp only [Except.ok.injEq, Prod.mk.injEq] at h
          obtain ⟨h1, h2⟩ := h
          subst h1
          subst h2
          obtain ⟨hdf, hdd⟩ := create_dir_all_ok fs fsc _ hc
          exact ⟨rfl, (hdd _).mpr (Or.inr (self_mem_ancestorChain _)),
            create_dir_all_wf fs fsc _ hwf hc,
            fun q hq => (hdd q).mpr (Or.inr hq)⟩
  · intro e h
    simp only [Project.gc_root_path] at h
    by_cases hd : proj.gcRootTarget ∈ fs.dirs
    · simp [hd] at h
    · simp only [hd, if_false] at h
      cases hc : fs.create_dir_all proj.gcRootTarget with
      | error e2 => rw [hc] at h; cases h; rfl
      | ok fsc => rw [hc] at h; cases h

theorem C3_gc_root_path_creates_witness :
    FS.wf fsW3 ∧ (⟨true, ["t", hashW, "gc_root"]⟩ : Path) ∈ fsW3.dirs := by
  have hwf : FS.wf fsW3 := by decide
  exact ⟨hwf,
    ((C3_gc_root_path_creates projW1 fsW3 hwf).1
      ⟨true, ["t", hashW, "gc_root"]⟩ fsW3 (by decide)).2.1⟩

/-- C4: `gc_root_path` is idempotent: a second call on the filesystem a
successful call produced returns the same path and the same filesystem. -/
theorem C4_gc_root_path_idempotent (proj : Project) (fs : FS) (p : Path)
    (fs1 : FS) (h : proj.gc_root_path fs = Except.ok (p, fs1)) :
    proj.gc_root_path fs1 = Except.ok (p, fs1) := by
  obtain ⟨hp, hmem⟩ := gc_root_path_ok proj fs p fs1 h
  subst hp
  simp only [Project.gc_root_path]
  rw [if_pos hmem]

theorem C4_gc_root_path_idempotent_witness :
    Project.gc_root_path projW1 ⟨[], []⟩ =
        Except.ok (⟨true, ["t", hashW, "gc_root"]⟩, fsW4) ∧
      Project.gc_root_path projW1 fsW4 =
        Except.ok (⟨true, ["t", hashW, "gc_root"]⟩, fsW4) :=
  ⟨by decide,
   C4_gc_root_path_idempotent projW1 ⟨[], []⟩
     ⟨true, ["t", hashW, "gc_root"]⟩ fsW4 (by decide)⟩

/-- C5: the conversion of the file-location error type into
`ProjectLoadError` is one-to-one, maps `NotFound` to `ConfigNotFound` and
`Io` to `Io` with the same cause; locating a configuration file that does
not exist therefore yields `ConfigNotFound`, never a plain `Io` error. -/
theorem C5_error_conversion (e1 e2 : FileLocationError)
    (h : ProjectLoadError.ofFileLocationError e1 =
      ProjectLoadError.ofFileLocationError e2) :
    e1 = e2 ∧
      ProjectLoadError.ofFileLocationError FileLocationError.NotFound =
        ProjectLoadError.ConfigNotFound ∧
      (∀ e : IoError,
        ProjectLoadError.ofFileLocationError (FileLocationError.Io e) =
          ProjectLoadError.Io e) ∧
      ∀ pr : Except PathsInitFailure Paths,
        Project.from_cwd (Except.error FileLocationError.NotFound) pr =
          some (Except.error ProjectLoadError.ConfigNotFound) := by
  refine ⟨?_, rfl, fun e => rfl, fun pr => rfl⟩
  cases e1 <;> cases e2 <;>
    simp_all [ProjectLoadError.ofFileLocationError]

theorem C5_error_conversion_witness :
    ProjectLoadError.ofFileLocationError FileLocationError.NotFound =
        ProjectLoadError.ConfigNotFound ∧
      Project.from_cwd (Except.error FileLocationError.NotFound)
          (Except.ok pathsW) =
        some (Except.error ProjectLoadError.ConfigNotFound) :=
  ⟨(C5_error_conversion FileLocationError.NotFound FileLocationError.NotFound
      rfl).2.1,
   (C5_error_conversion FileLocationError.NotFound FileLocationError.NotFound
      rfl).2.2.2 (Except.ok pathsW)⟩

/-- C6: `Project.load` panics exactly when the configuration-file path
has no parent; for every path with a parent the unwrap branch is
unreachable. -/
theorem C6_load_panics_iff_no_parent (p base : Path) :
    Project.load p base = none ↔ p.parent = none := by
  unfold Project.load
  cases hp : p.parent <;> simp

theorem C6_load_panics_iff_no_parent_witness :
    Project.load rootPathW baseW = none ∧
      Project.load pathW baseW ≠ none :=
  ⟨(C6_load_panics_iff_no_parent rootPathW baseW).mpr rfl, by decide⟩

/-- C7: `expression` returns the `nix_file` path verbatim; it is a total
function of the project value alone, so it is pure and cannot fail. -/
theorem C7_expression_verbatim (proj : Project) :
    proj.expression = proj.nix_file :=
  rfl

/-- C8: when the path-layout collaborator fails inside `from_cwd`, the
operation aborts with a panic (`none`), which is never a
`ProjectLoadError` result: it is not converted into `ConfigNotFound` or
`Io`. -/
theorem C8_paths_failure_panics (shell_nix : Path) (e : ProjectLoadError) :
    Project.from_cwd (Except.ok shell_nix)
        (Except.error PathsInitFailure.failed) = none ∧
      Project.from_cwd (Except.ok shell_nix)
        (Except.error PathsInitFailure.failed) ≠ some (Except.error e) :=
  ⟨rfl, by simp [Project.from_cwd]⟩

/-- C9: the identifier of every project is a string of exactly 32
characters, each a lowercase hexadecimal digit; in particular it contains
no path separator. -/
theorem C9_hash_32_lowercase_hex (proj : Project) :
    proj.hash.length = 32 ∧
      (∀ c ∈ proj.hash.data, c ∈ "0123456789abcdef".data) ∧
      '/' ∉ proj.hash.data := by
  have hmem : ∀ c ∈ proj.hash.data, c ∈ "0123456789abcdef".data :=
    digestToHex_mem _ (md5_lt _)
  refine ⟨?_, hmem, fun h => ?_⟩
  · show (digestToHex (md5 proj.project_root.bytes)).length = 32
    rw [digestToHex_length, md5_length]
  · have := hmem _ h
    revert this
    decide

theorem C9_hash_32_lowercase_hex_witness :
    (projW1.hash).length = 32 ∧ ('b' : Char) ∈ "0123456789abcdef".data :=
  ⟨(C9_hash_32_lowercase_hex projW1).1,
   (C9_hash_32_lowercase_hex projW1).2.1 'b' (by decide)⟩

/-- C10: `Project.load` never returns the error variant: whenever it
returns at all (does not panic), the result is `Ok`. -/
theorem C10_load_never_errs (p base : Path)
    (r : Except ProjectLoadError Project)
    (h : Project.load p base = some r) : r.isOk = true := by
  unfold Project.load at h
  cases hp : p.parent with
  | none => rw [hp] at h; cases h
  | some d =>
      rw [hp] at h
      simp only [Option.some.injEq] at h
      rw [← h]
      rfl

theorem C10_load_never_errs_witness :
    Project.load pathW baseW =
        some (Except.ok
          { nix_file := pathW, project_root := rootW, gc_root := baseW }) ∧
      (Except.ok
          { nix_file := pathW, project_root := rootW, gc_root := baseW } :
        Except ProjectLoadError Project).isOk = true :=
  ⟨by decide, C10_load_never_errs pathW baseW _ (by decide)⟩

end Lorri
